import Mathlib

/-!
Verification of the rx-query core (`src/rx-query/query.ts`) against its
natural-language specification.

The development shallowly embeds the parts of `query.ts` that the claims
talk about:

* the retry configuration (`createRetryCondition`),
* the invocation engine `callResult$` (the `expand`-based retry loop and the
  zero-tick `debounce` that collapses interim error→loading transitions),
* the mutation pipeline `mutateQuery`,
* the consumer result pipe (key lookup, bookkeeping-trigger filter,
  `distinctUntilChanged`),
* the parameter trigger `paramsTrigger` together with the `finalize`
  teardown of `query`,
* the argument parser `parseInput`, and
* the cache-key codec `queryKeyAndParamsToCacheKey` (both over an inductive
  JSON value type and over a heap model that can represent cyclic objects).

The group state store lives in `cache.ts`, which is not part of the sources
under verification; where a claim depends on it the store is modelled from
the specification's transition table (each such definition is marked
`Modelled from the spec`).

Streams are modelled by the finite lists of the values they emit.  A
scheduling tick is a list of values emitted in the same synchronous frame;
a stream with tick structure is a list of ticks.
-/

namespace RxQuery

/-- The `QueryOutput` record of `types.ts` as used by `query.ts`: a status
string, optional data, optional error, and the retry counter.  (`query.ts`
omits the `retries` field on a success with `retries = 0`; the model keeps
the field with value 0, which carries the same information.)  The `mutate`
callback attached by the final `map` of `callResult$` is a function value
and is not part of the compared data. -/
structure Output where
  status : String
  data : Option Int := none
  error : Option String := none
  retries : Nat := 0
deriving DecidableEq, Repr

/-- The error value produced by one failing attempt of `invoke` in
`query.ts` (lines 71–79): `catchError` replaces the error notification by
`of({ status: 'error', error, retries })`. -/
def errOut (e : String) (n : Nat) : Output :=
  { status := "error", error := some e, retries := n }

/-- The interim value emitted while retrying (`query.ts` lines 113–117):
`startWith({ ...result, status: loadingStatus })` — the spread keeps the
error and the retry counter of the error value and only swaps the status. -/
def interimOut (load e : String) (n : Nat) : Output :=
  { errOut e n with status := load }

/-- The success value produced by one successful attempt of `invoke`
(`query.ts` lines 62–69). -/
def successOut (v : Int) (n : Nat) : Output :=
  { status := "success", data := some v, retries := n }

/-- The `retries` entry of a `QueryConfig`: either a numeric attempt
ceiling or a predicate over the attempt count and the last error. -/
inductive RetriesConf where
  | num (k : Nat)
  | pred (f : Nat → String → Bool)

/-- Direct translation of `createRetryCondition` (`query.ts` lines 189–193):
a numeric config `k` becomes `(n) => n < (k || 0)` (for a number, `k || 0`
is `k`: JavaScript `0 || 0` is `0` and any other number is truthy), and a
function config is used as given (`queryConfig.retries || (() => false)`;
a present function is truthy). -/
def createRetryCondition : RetriesConf → (Nat → String → Bool)
  | .num k => fun n _ => decide (n < k)
  | .pred f => f

/-- The tick sequence produced by `invoke(0).pipe(expand(...))` in
`callResult$` (`query.ts` lines 102–122) for a fetch function that fails
every attempt with error `e`.

Each failing attempt `n` emits `errOut e n`; `expand` forwards it
downstream first and then, when the retry condition holds, subscribes
`timer(retryDelay).pipe(concatMap(() => invoke(n+1)), startWith(interim))`,
whose `startWith` emits the interim value in the same synchronous frame —
so the tick of attempt `n` is `[errOut e n, interimOut load e n]`, and the
next attempt's error opens the next tick after the timer fires.  When the
condition fails the expansion is `EMPTY` and the stream completes after the
tick `[errOut e n]`.

`fuel` bounds the recursion; the theorems use any `fuel` large enough that
the bound is never hit, so the value is fuel-independent.  The model
assumes the caller's loading label is not the string `"error"` (the store
only ever passes `'loading'` or `'refreshing'`), so the interim value never
re-triggers the expansion. -/
def expandTicks (cond : Nat → String → Bool) (load e : String) :
    Nat → Nat → List (List Output)
  | 0, _ => []
  | fuel + 1, n =>
    if cond n e then
      [errOut e n, interimOut load e n] :: expandTicks cond load e fuel (n + 1)
    else
      [[errOut e n]]

/-- One step of `debounce((result) => result.status === 'error' ? timer(0) : EMPTY)`
(`query.ts` line 125) within a single tick.  An error-status value is held
(any previously held value is dropped); a non-error value is emitted at
once — its duration observable `EMPTY` completes immediately — dropping any
held error.  A value still held when the tick ends is emitted when its
`timer(0)` fires, before any value of the next tick (the debounce timer is
scheduled before the retry timer, because `expand` forwards the error
downstream before subscribing the expansion). -/
def debounceTickAux : Option Output → List Output → List Output
  | pending, [] => pending.toList
  | _, v :: rest =>
    if v.status == "error" then debounceTickAux (some v) rest
    else v :: debounceTickAux none rest

/-- The values a single tick delivers through the debounce. -/
def debounceTick (tick : List Output) : List Output :=
  debounceTickAux none tick

/-- The whole debounced stream: ticks are processed in order and a pending
error is flushed at each tick boundary. -/
def debounceTicks (ticks : List (List Output)) : List Output :=
  (ticks.map debounceTick).flatten

/-- Modelled from the spec: when the Group State Store (`cache.ts`, not
under `src/`) starts an invocation it sets the group result to a state
carrying the caller's loading label (`loading` on first load, `refreshing`
on revalidation), which is the first state the consumer observes for the
invocation. -/
def initialState (load : String) : Output :=
  { status := load }

/-- The full sequence of states a consumer observes for one invocation of a
permanently failing fetch: the store's initial loading-labelled state
followed by the debounced output of `callResult$`. -/
def consumerInvocationSeq (cond : Nat → String → Bool) (load e : String)
    (fuel : Nat) : List Output :=
  initialState load :: debounceTicks (expandTicks cond load e fuel 0)

/-- The three fetch behaviours the error-handling claim distinguishes: a
fetch returning an observable that emits a value and completes, a fetch
returning an observable that terminates with an error notification, and a
fetch that throws synchronously when called. -/
inductive Fetch where
  | obsVal (v : Int)
  | obsErr (e : String)
  | throwsSync (e : String)
deriving DecidableEq, Repr

/-- The result of one attempt `invoke(n)` (`query.ts` lines 60–81): an
observable value yields a success output, an observable error notification
is caught by `catchError` and becomes an error output, and a synchronous
throw escapes `invoke` — `query(params)` throws before any operator can
see a notification. -/
inductive InvokeRes where
  | out (o : Output)
  | thrown (e : String)
deriving DecidableEq, Repr

/-- Translation of `invoke` (`query.ts` lines 60–81) for the three fetch
behaviours. -/
def invoke (f : Fetch) (n : Nat) : InvokeRes :=
  match f with
  | .obsVal v => .out (successOut v n)
  | .obsErr e => .out (errOut e n)
  | .throwsSync e => .thrown e

/-- A completed stream: either it completes normally after emitting
`values`, or it terminates with an error notification after emitting
`values`. -/
inductive RStream where
  | values (xs : List Output)
  | errored (xs : List Output) (e : String)
deriving DecidableEq, Repr

/-- Whether a stream completed without an error notification. -/
def neverErrors : RStream → Bool
  | .values _ => true
  | .errored _ _ => false

/-- The stream produced by `callResult$` (`query.ts` lines 102–133) under a
numeric retry ceiling `k`, for each fetch behaviour.

* `obsVal v`: attempt 0 succeeds; `expand` maps the success to `EMPTY`, the
  debounce passes the non-error value through, and the stream completes
  after `[successOut v 0]`.
* `obsErr e`: every attempt fails with an error notification that
  `catchError` converts to a value; the retry loop and debounce run exactly
  as in `expandTicks`/`debounceTicks`.
* `throwsSync e`: `invoke(0)` is called inside the factory of
  `defer(() => invoke(0).pipe(...))`; the synchronous throw of
  `query(params)` is caught by `defer`, which forwards it as an error
  notification, so the stream errors before emitting any value. -/
def callResultStream (k : Nat) (load : String) (f : Fetch) : RStream :=
  match invoke f 0 with
  | .thrown e => .errored [] e
  | .out o =>
    if o.status == "error" then
      .values (debounceTicks
        (expandTicks (createRetryCondition (.num k)) load
          (o.error.getD "") (k + 1) 0))
    else
      .values [o]

/-- The termination of a mutator's observable once all of its value
emissions are accounted for: a normal completion or an error notification
carrying `e`. -/
inductive ObsTerm where
  | complete
  | errNote (e : String)
deriving DecidableEq, Repr

/-- The value returned by the configured mutator inside `mutateQuery`
(`query.ts` line 84): either a plain (non-observable) value, or an
observable described by the list of values it emits followed by its
terminal notification. -/
inductive MutatorRet where
  | plain (v : Int)
  | obs (vs : List Int) (t : ObsTerm)
deriving DecidableEq, Repr

/-- The three mutation bus events.  `mutate`, `mutateOptimistic` and
`mutateError` live in `mutate.ts` (not under `src/`); modelled from the
spec, each helper emits exactly the one correspondingly named event. -/
inductive MEvent where
  | optimistic (v : Int)
  | success (v : Int)
  | mutErrEvt (e : String)
deriving DecidableEq, Repr

/-- Whether a mutation event is terminal (`mutate-success` or
`mutate-error`). -/
def isTerminalMEvent : MEvent → Bool
  | .success _ => true
  | .mutErrEvt _ => true
  | .optimistic _ => false

/-- Translation of `mutateQuery` (`query.ts` lines 83–101).  A
non-observable mutator result calls `mutate(cacheKey, mutate$)` and nothing
else.  An observable result is piped through
`map(newData => () => mutate(cacheKey, newData))`, `take(1)`,
`startWith(() => mutateOptimistic(cacheKey, data))` and subscribed with an
error handler calling `mutateError`:

* the `startWith` thunk always fires first, emitting `mutate-optimistic`
  with the caller-supplied `data`;
* if the observable emits a value, `take(1)` delivers the first mapped
  thunk — one `mutate-success` with that value — and then completes,
  unsubscribing the source, so no later value or error is seen;
* if the observable errors before emitting, the error handler emits one
  `mutate-error`;
* if the observable completes without emitting, `take(1)` just completes
  and no further event is emitted. -/
def mutateQueryEvents (data : Int) : MutatorRet → List MEvent
  | .plain v => [.success v]
  | .obs vs t =>
    .optimistic data ::
      match vs with
      | v :: _ => [.success v]
      | [] =>
        match t with
        | .complete => []
        | .errNote e => [.mutErrEvt e]

/-- The number of terminal mutation events in an event list. -/
def terminalCount (es : List MEvent) : Nat :=
  es.countP fun e => isTerminalMEvent e

/-- One entry of the cache broadcast (`queryCache` in `cache.ts`): the
trigger that produced the group's current state and the group's result.
Only the two fields the consumer pipe of `query.ts` reads are modelled. -/
structure CacheEntry where
  trigger : String
  result : Output
deriving DecidableEq, Repr

/-- A cache broadcast value: the map from cache key to entry, as an
association list (`c` in `query.ts` line 160). -/
abbrev CacheSnapshot := List (String × CacheEntry)

/-- Key lookup `c[k.key]` on a snapshot. -/
def lookupCache : CacheSnapshot → String → Option CacheEntry
  | [], _ => none
  | (k, e) :: rest, key => if k == key then some e else lookupCache rest key

/-- The bookkeeping triggers excluded by the consumer pipe
(`query.ts` line 165). -/
def isBookkeepingTrigger (t : String) : Bool :=
  t == "query-unsubscribe" || t == "group-unsubscribe"

/-- Helper for `distinctUntilChanged`: drops each value equal to the last
delivered one. -/
def distinctUntilChangedAux {α : Type} [DecidableEq α] (prev : α) :
    List α → List α
  | [] => []
  | x :: xs =>
    if x = prev then distinctUntilChangedAux prev xs
    else x :: distinctUntilChangedAux x xs

/-- The `distinctUntilChanged()` operator on a finite stream (structural
equality stands in for the reference equality RxJS uses by default). -/
def distinctUntilChanged {α : Type} [DecidableEq α] : List α → List α
  | [] => []
  | x :: xs => x :: distinctUntilChangedAux x xs

/-- The consumer result pipe of `query` (`query.ts` lines 158–168): each
cache broadcast is paired (by `withLatestFrom(params$)`) with the
consumer's current cache key, looked up (`c[k.key]`), filtered to existing
entries whose trigger is not bookkeeping, mapped to the group result, and
deduplicated. -/
def consumerStates (emissions : List (CacheSnapshot × String)) : List Output :=
  distinctUntilChanged
    (((emissions.filterMap fun ck => lookupCache ck.1 ck.2).filter
        fun e => !isBookkeepingTrigger e.trigger).map fun e => e.result)

/-- A JSON-representable JavaScript value.  Object fields keep their
insertion order, exactly as a JavaScript object does when serialized.
String contents are assumed to need no escaping; none of the claims
depends on escape sequences. -/
inductive JVal where
  | jnull
  | jbool (b : Bool)
  | jnum (n : Int)
  | jstr (s : String)
  | jarr (xs : List JVal)
  | jobj (fields : List (String × JVal))

mutual

/-- Structural (ordered) equality of two `JVal`s. -/
def jvalEq : JVal → JVal → Bool
  | .jnull, .jnull => true
  | .jbool a, .jbool b => a == b
  | .jnum a, .jnum b => a == b
  | .jstr a, .jstr b => a == b
  | .jarr xs, .jarr ys => jvalListEq xs ys
  | .jobj fs, .jobj gs => jvalFieldsEq fs gs
  | _, _ => false

/-- Elementwise structural equality of array contents. -/
def jvalListEq : List JVal → List JVal → Bool
  | [], [] => true
  | x :: xs, y :: ys => jvalEq x y && jvalListEq xs ys
  | _, _ => false

/-- Fieldwise structural equality of object contents (order-sensitive;
order-insensitivity comes from comparing canonical forms). -/
def jvalFieldsEq : List (String × JVal) → List (String × JVal) → Bool
  | [], [] => true
  | (k, v) :: fs, (l, w) :: gs => k == l && jvalEq v w && jvalFieldsEq fs gs
  | _, _ => false

end

mutual

/-- `JSON.stringify` on a `JVal`: field order is preserved, so two objects
with the same fields in different insertion order serialize differently
(numbers are modelled as integers, whose JavaScript formatting is their
decimal representation). -/
def jsonStringify : JVal → String
  | .jnull => "null"
  | .jbool true => "true"
  | .jbool false => "false"
  | .jnum n => toString n
  | .jstr s => "\"" ++ s ++ "\""
  | .jarr xs => "[" ++ jsonStringifyList xs ++ "]"
  | .jobj fs => "\x7b" ++ jsonStringifyFields fs ++ "\x7d"

/-- Comma-separated serialization of array elements. -/
def jsonStringifyList : List JVal → String
  | [] => ""
  | [x] => jsonStringify x
  | x :: y :: xs => jsonStringify x ++ "," ++ jsonStringifyList (y :: xs)

/-- Comma-separated serialization of object fields, in insertion order. -/
def jsonStringifyFields : List (String × JVal) → String
  | [] => ""
  | [(k, v)] => "\"" ++ k ++ "\":" ++ jsonStringify v
  | (k, v) :: f :: fs =>
    "\"" ++ k ++ "\":" ++ jsonStringify v ++ "," ++ jsonStringifyFields (f :: fs)

end

/-- Lexicographic order on character lists; any total order on keys works
for canonicalization, and this one is kernel-computable. -/
def charListLe : List Char → List Char → Bool
  | [], _ => true
  | _ :: _, [] => false
  | c :: cs, d :: ds =>
    if c < d then true
    else if d < c then false
    else charListLe cs ds

/-- Lexicographic order on field keys. -/
def keyLe (a b : String) : Bool :=
  charListLe a.data b.data

/-- Insertion of a field into a key-sorted field list. -/
def insertField (p : String × JVal) : List (String × JVal) → List (String × JVal)
  | [] => [p]
  | q :: qs => if keyLe p.1 q.1 then p :: q :: qs else q :: insertField p qs

/-- Key-sorting of an object's field list (insertion sort). -/
def sortFields : List (String × JVal) → List (String × JVal)
  | [] => []
  | p :: ps => insertField p (sortFields ps)

mutual

/-- Canonical form of a value: object fields are recursively sorted by key;
arrays keep their order.  Two values are deeply structurally equal exactly
when their canonical forms coincide. -/
def canon : JVal → JVal
  | .jnull => .jnull
  | .jbool b => .jbool b
  | .jnum n => .jnum n
  | .jstr s => .jstr s
  | .jarr xs => .jarr (canonList xs)
  | .jobj fs => .jobj (sortFields (canonFields fs))

/-- Canonical forms of a list of array elements. -/
def canonList : List JVal → List JVal
  | [] => []
  | x :: xs => canon x :: canonList xs

/-- Canonical forms of the values of a field list (order untouched; sorting
happens in `canon`). -/
def canonFields : List (String × JVal) → List (String × JVal)
  | [] => []
  | (k, v) :: fs => (k, canon v) :: canonFields fs

end

/-- Deep structural equality of two JavaScript values: equality of
canonical forms, which in particular ignores object field insertion
order. -/
def deepEqual (a b : JVal) : Bool :=
  jvalEq (canon a) (canon b)

/-- A JavaScript parameter value as seen by `queryKeyAndParamsToCacheKey`:
either `undefined` or a proper value (which may be `null`). -/
inductive JSParam where
  | jsUndefined
  | val (v : JVal)

/-- Whether `typeof params` is `'string'` or `'number'`
(`query.ts` line 317). -/
def isPrimitiveParam : JVal → Bool
  | .jstr _ => true
  | .jnum _ => true
  | _ => false

/-- Translation of `queryKeyAndParamsToCacheKey` (`query.ts` lines
312–324): `undefined` and `null` params map to the bare key; a string or
number param is concatenated directly; every other value is concatenated
through `JSON.stringify`. -/
def queryKeyAndParamsToCacheKey (key : String) : JSParam → String
  | .jsUndefined => key
  | .val .jnull => key
  | .val (.jstr s) => key ++ "-" ++ s
  | .val (.jnum n) => key ++ "-" ++ toString n
  | .val v => key ++ "-" ++ jsonStringify v

/-- A JavaScript runtime value that, unlike `JVal`, can reference heap
objects and therefore form cycles. -/
inductive HVal where
  | hnull
  | hbool (b : Bool)
  | hnum (n : Int)
  | hstr (s : String)
  | href (a : Nat)
deriving DecidableEq, Repr

/-- A heap: object addresses mapped to their field lists. -/
structure Heap where
  objs : List (Nat × List (String × HVal))
deriving DecidableEq, Repr

/-- The failure mode of `JSON.stringify`: the `TypeError` thrown on a
circular structure. -/
inductive JsonErr where
  | circular
deriving DecidableEq, Repr

/-- Field list of the object at address `a`, if allocated. -/
def lookupObj (h : Heap) (a : Nat) : Option (List (String × HVal)) :=
  (h.objs.find? fun p => p.1 == a).map fun p => p.2

/-- `JSON.stringify` on a heap value.  `seen` is the ancestry of object
addresses on the current path; revisiting one is exactly the condition
under which the JavaScript engine throws its circular-structure
`TypeError`.  `fuel` bounds the recursion depth; with
`fuel = h.objs.length + 1` a path can only exhaust it after repeating an
address, so the fuel-exhaustion branch also reports a circularity. -/
def stringifyHVal (h : Heap) (fuel : Nat) : List Nat → HVal → Except JsonErr String :=
  match fuel with
  | 0 => fun _ v =>
    match v with
    | .hnull => .ok "null"
    | .hbool true => .ok "true"
    | .hbool false => .ok "false"
    | .hnum n => .ok (toString n)
    | .hstr s => .ok ("\"" ++ s ++ "\"")
    | .href _ => .error .circular
  | f + 1 => fun seen v =>
    match v with
    | .hnull => .ok "null"
    | .hbool true => .ok "true"
    | .hbool false => .ok "false"
    | .hnum n => .ok (toString n)
    | .hstr s => .ok ("\"" ++ s ++ "\"")
    | .href a =>
      if a ∈ seen then .error .circular
      else
        match lookupObj h a with
        | none => .ok "null"
        | some fields =>
          (fields.mapM fun kv =>
              (stringifyHVal h f (a :: seen) kv.2).map
                fun s => "\"" ++ kv.1 ++ "\":" ++ s).map
            fun parts => "\x7b" ++ String.intercalate "," parts ++ "\x7d"

/-- Fuel sufficient for any acyclic path through the heap. -/
def heapFuel (h : Heap) : Nat :=
  h.objs.length + 1

/-- `queryKeyAndParamsToCacheKey` over heap values, where `JSON.stringify`
can throw: the thrown `TypeError` is modelled as `Except.error`.
`none` plays the role of `undefined`. -/
def cacheKeyOnHeap (h : Heap) (key : String) : Option HVal → Except JsonErr String
  | none => .ok key
  | some .hnull => .ok key
  | some (.hstr s) => .ok (key ++ "-" ++ s)
  | some (.hnum n) => .ok (key ++ "-" ++ toString n)
  | some v => (stringifyHVal h (heapFuel h) [] v).map fun s => key ++ "-" ++ s

/-- The comparison key used by the `distinctUntilChanged` of
`paramsTrigger` (`query.ts` line 203): `JSON.stringify(a)`, where
`JSON.stringify(undefined)` is the (non-string) value `undefined`,
modelled as `none`. -/
def stringifyParam : JSParam → Option String
  | .jsUndefined => none
  | .val v => some (jsonStringify v)

/-- The fields of a `Revalidator` event that the claims read (the `query`
invoker and the config are omitted: they are function and configuration
values). -/
structure Reval where
  key : String
  trigger : String
  params : JSParam

/-- Helper for `distinctUntilChangedBy`. -/
def distinctUntilChangedByAux {α β : Type} [DecidableEq β] (f : α → β)
    (prev : α) : List α → List α
  | [] => []
  | x :: xs =>
    if f x = f prev then distinctUntilChangedByAux f prev xs
    else x :: distinctUntilChangedByAux f x xs

/-- `distinctUntilChanged` with a custom comparator `(a, b) => f a = f b`,
comparing each candidate with the last delivered value. -/
def distinctUntilChangedBy {α β : Type} [DecidableEq β] (f : α → β) :
    List α → List α
  | [] => []
  | x :: xs => x :: distinctUntilChangedByAux f x xs

/-- The consecutive pairs of a stream (`pairwise`). -/
def pairwiseList {α : Type} : List α → List (α × α)
  | a :: b :: rest => (a, b) :: pairwiseList (b :: rest)
  | _ => []

/-- Translation of `paramsTrigger` (`query.ts` lines 195–230) as a function
of the values the parameter stream emits: `startWith(undefined)`,
`distinctUntilChanged` comparing `JSON.stringify` forms, `pairwise`, and
for each pair a `query-unsubscribe` for the previous params (unless the
previous value is `undefined`) followed by a `query-subscribe` for the new
params.  The result is the full list of `Revalidator` events the operator
chain emits, which is also the replay buffer of its trailing
`shareReplay()` (unbounded by default). -/
def paramsTriggerEvents (key : String) (ps : List JSParam) : List Reval :=
  (pairwiseList (distinctUntilChangedBy stringifyParam (JSParam.jsUndefined :: ps))).flatMap
    fun pc =>
      (match pc.1 with
        | .jsUndefined => []
        | p =>
          [{ key := queryKeyAndParamsToCacheKey key p,
             trigger := "query-unsubscribe", params := p }]) ++
      [{ key := queryKeyAndParamsToCacheKey key pc.2,
         trigger := "query-subscribe", params := pc.2 }]

/-- The teardown of `query` (`query.ts` lines 169–178): `finalize`
subscribes `params$.pipe(take(1))` — `params$` being the `shareReplay()`
of `paramsTrigger`, whose unbounded buffer replays every event from the
beginning — so `take(1)` yields the FIRST buffered `Revalidator`, and one
event equal to it with the trigger replaced by `query-unsubscribe` is
pushed on the bus.  `none` when the parameter stream never produced an
event. -/
def finalizeEvent (key : String) (ps : List JSParam) : Option Reval :=
  (paramsTriggerEvents key ps).head?.map fun r =>
    { r with trigger := "query-unsubscribe" }

/-- The key the spec's teardown sentence asks for: the cache key of the
consumer's last-known (most recent distinct) parameter value. -/
def lastKnownKey (key : String) (ps : List JSParam) : String :=
  queryKeyAndParamsToCacheKey key
    ((distinctUntilChangedBy stringifyParam (JSParam.jsUndefined :: ps)).getLast?.getD JSParam.jsUndefined)

/-- One positional argument of the variadic `query(key, ...inputs)` entry
point: the fetch function, or a parameter value (a constant param, an
invalid leading config also lands here — JavaScript does not distinguish). -/
inductive CallInput where
  | fn
  | paramVal (p : JSParam)

/-- The parameter value `parseInput` (`query.ts` lines 281–310) gives the
query: `hasParamInput` is `typeof firstInput !== 'function'`; with a
leading function (the no-params call shape) the parameter source is
`of(null)`, with a leading value it is `of(firstInput)` (a parameter
stream's successive emissions are handled by `paramsTriggerEvents`), and
with no arguments at all `firstInput` is `undefined`, giving
`of(undefined)`. -/
def parsedParam : List CallInput → JSParam
  | .fn :: _ => .val .jnull
  | .paramVal p :: _ => p
  | [] => .jsUndefined

/-- Modelled from the spec: the per-key `GroupState` of the Group State
Store (`cache.ts`, not under `src/`), §3 and §4.4.  `activeRuns` counts
the Invocation Engine runs currently active for the key (the code keeps a
live subscription; the count makes the dedup invariant checkable);
`fresh` abstracts the `staleTime` check (`now - cachedAt < staleTime`). -/
structure GroupState where
  subscriberCount : Nat
  activeRuns : Nat
  mutating : Bool
  result : Option Output
  fresh : Bool
deriving DecidableEq, Repr

/-- Modelled from the spec: the events the Group State Store applies for
one key — the `Revalidator` triggers of §4.4's transition table, plus
`becomeStale` (the `staleTime` clock expiring) and `invocationDone` (an
Invocation Engine run delivering its terminal state back to the store). -/
inductive GEvent where
  | subscribe
  | unsubscribe
  | interval
  | focus
  | becomeStale
  | invocationDone (o : Output)
  | mutOptimistic
  | mutSuccess
  | mutError
deriving DecidableEq, Repr

/-- The loading label of a fresh invocation: `loading` with no prior data,
`refreshing` with prior data present (§4.4). -/
def startLabel (s : GroupState) : String :=
  match s.result with
  | none => "loading"
  | some _ => "refreshing"

/-- The last known-good data, carried across refresh cycles (§3). -/
def carriedData (s : GroupState) : Option Int :=
  match s.result with
  | none => none
  | some r => r.data

/-- Modelled from the spec: the `interval`/`focus` rows of §4.4's table —
dropped while `mutating`, and a `refreshing` invocation starts only when
none is active. -/
def refreshStep (s : GroupState) : GroupState × Bool :=
  if !s.mutating && s.activeRuns == 0 then
    ({ s with activeRuns := s.activeRuns + 1,
              result := some { status := "refreshing", data := carriedData s } }, true)
  else (s, false)

/-- Modelled from the spec: the transition table of §4.4, one event applied
to one key's state.  The returned flag records whether the event started a
new Invocation Engine run.  Eviction timers are time behaviour outside
this model; `unsubscribe` only decrements the subscriber count. -/
def applyEvent (s : GroupState) : GEvent → GroupState × Bool
  | .subscribe =>
    if (s.result.isNone || !s.fresh) && s.activeRuns == 0 then
      ({ s with subscriberCount := s.subscriberCount + 1,
                activeRuns := s.activeRuns + 1,
                result := some { status := startLabel s, data := carriedData s } },
       true)
    else
      ({ s with subscriberCount := s.subscriberCount + 1 }, false)
  | .unsubscribe => ({ s with subscriberCount := s.subscriberCount - 1 }, false)
  | .interval => refreshStep s
  | .focus => refreshStep s
  | .becomeStale => ({ s with fresh := false }, false)
  | .invocationDone o =>
    ({ s with activeRuns := s.activeRuns - 1, result := some o, fresh := true }, false)
  | .mutOptimistic =>
    if s.mutating then (s, false) else ({ s with mutating := true }, false)
  | .mutSuccess => ({ s with mutating := false }, false)
  | .mutError => ({ s with mutating := false }, false)

/-- The state of a key before any event. -/
def initialGroup : GroupState :=
  { subscriberCount := 0, activeRuns := 0, mutating := false,
    result := none, fresh := false }

/-- The group state reached by applying a sequence of events in bus order
(the bus is a single ordered stream, §5). -/
def runEvents (es : List GEvent) : GroupState :=
  es.foldl (fun s e => (applyEvent s e).1) initialGroup

/-- The broadcast (§4.4): after each event, every subscriber of the key
observes the same group result, independently of the subscriber's
identity. -/
def observe (s : GroupState) (_consumer : Nat) : Option Output :=
  s.result

/-- The non-mutation triggers that can ask for a fetch: subscribe,
interval, focus. -/
def isRevalidationTrigger : GEvent → Bool
  | .subscribe => true
  | .interval => true
  | .focus => true
  | _ => false

/-! ### Helper lemmas (shared across claims) -/

theorem debounceTickAux_insert_err (x v : Output) (post : List Output)
    (hx : x.status = "error") :
    ∀ (pre : List Output) (pending : Option Output),
      debounceTickAux pending (pre ++ x :: v :: post)
        = debounceTickAux pending (pre ++ v :: post) := by
  intro pre
  induction pre with
  | nil =>
    intro pending
    cases hv : v.status == "error" <;> simp [debounceTickAux, hx, hv]
  | cons a pre ih =>
    intro pending
    simp only [List.cons_append, debounceTickAux]
    split
    · exact ih _
    · exact congrArg (a :: ·) (ih none)

theorem debounceTickAux_last_err (x : Output) (hx : x.status = "error") :
    ∀ (pre : List Output) (pending : Option Output),
      (debounceTickAux pending (pre ++ [x])).getLast? = some x := by
  intro pre
  induction pre with
  | nil =>
    intro pending
    simp [debounceTickAux, hx]
  | cons a pre ih =>
    intro pending
    simp only [List.cons_append, debounceTickAux]
    split
    · exact ih _
    · have h := ih none
      cases hl : debounceTickAux none (pre ++ [x]) with
      | nil => rw [hl] at h; simp at h
      | cons b bs => rw [hl] at h; rw [List.getLast?_cons_cons]; exact h

theorem debounceTick_pair (a b : Output) (ha : a.status = "error") :
    debounceTick [a, b] = [b] := by
  cases hb : b.status == "error" <;>
    simp [debounceTick, debounceTickAux, ha, hb]

theorem debounceTick_single (a : Output) : debounceTick [a] = [a] := by
  cases h : a.status == "error" <;> simp [debounceTick, debounceTickAux, h]

theorem flatten_map_singleton {α β : Type} (f : α → β) :
    ∀ l : List α, (l.map fun a => [f a]).flatten = l.map f
  | [] => rfl
  | a :: l => by
    simp only [List.map_cons, List.flatten_cons, flatten_map_singleton f l]
    rfl

theorem expandTicks_num (k : Nat) (load e : String) :
    ∀ (d n fuel : Nat), n + d = k → d < fuel →
      expandTicks (fun m _ => decide (m < k)) load e fuel n
        = ((List.range' n d).map fun i => [errOut e i, interimOut load e i])
            ++ [[errOut e k]] := by
  intro d
  induction d with
  | zero =>
    intro n fuel h hf
    match fuel, hf with
    | f + 1, _ =>
      have hn : n = k := by omega
      subst hn
      have hc : decide (n < n) = false := by simp
      simp [expandTicks, hc]
  | succ d ih =>
    intro n fuel h hf
    match fuel, hf with
    | f + 1, _ =>
      have hn : n < k := by omega
      have hc : decide (n < k) = true := decide_eq_true hn
      have hstep : expandTicks (fun m _ => decide (m < k)) load e (f + 1) n
          = [errOut e n, interimOut load e n]
              :: expandTicks (fun m _ => decide (m < k)) load e f (n + 1) := by
        simp [expandTicks, hc]
      rw [hstep, ih (n + 1) f (by omega) (by omega), List.range'_succ]
      simp

theorem map_debounce_pairs (load e : String) : ∀ l : List Nat,
    (List.map debounceTick (l.map fun i => [errOut e i, interimOut load e i])).flatten
      = l.map fun i => interimOut load e i
  | [] => rfl
  | i :: l => by
    simp only [List.map_cons, List.flatten_cons, map_debounce_pairs load e l]
    rw [debounceTick_pair _ _ rfl]
    rfl

theorem debounced_invocation (k fuel : Nat) (load e : String) (hf : k < fuel) :
    debounceTicks (expandTicks (fun m _ => decide (m < k)) load e fuel 0)
      = ((List.range k).map fun i => interimOut load e i) ++ [errOut e k] := by
  rw [expandTicks_num k load e k 0 fuel (by omega) hf]
  rw [debounceTicks, List.map_append, List.flatten_append,
    map_debounce_pairs, List.range_eq_range']
  simp [debounceTick_single]

/-! ### Claim theorems -/

/-- C1: for a permanently failing fetch and a retry configuration that
permits exactly `k` further attempts — numeric `retries = k` or the
predicate `(n, err) => n < k` — one invocation's observed sequence is the
initial state with the caller's loading label, then exactly `k` interim
states carrying that label, the last error, and `retries = i` for
`i = 0, …, k-1`, and finally the terminal `error` state with `retries = k`;
the list model ends there, matching the completed stream (`expand` returns
`EMPTY` once the condition fails). -/
theorem c1_retry_exhaustion (k fuel : Nat) (load e : String)
    (hfuel : k < fuel) (_hload : load ≠ "error") :
    consumerInvocationSeq (createRetryCondition (.num k)) load e fuel
        = initialState load ::
            (((List.range k).map fun i => interimOut load e i) ++ [errOut e k])
  ∧ consumerInvocationSeq (createRetryCondition (.pred fun n _ => decide (n < k)))
        load e fuel
        = initialState load ::
            (((List.range k).map fun i => interimOut load e i) ++ [errOut e k]) :=
  ⟨congrArg (initialState load :: ·) (debounced_invocation k fuel load e hfuel),
   congrArg (initialState load :: ·) (debounced_invocation k fuel load e hfuel)⟩

/-- Witness for `c1_retry_exhaustion` at `k = 2`, `fuel = 3`, a `loading`
label and error `"E"`. -/
theorem c1_retry_exhaustion_witness :
    (2 < 3 ∧ ("loading" : String) ≠ "error")
  ∧ consumerInvocationSeq (createRetryCondition (.num 2)) "loading" "E" 3
      = initialState "loading" ::
          (((List.range 2).map fun i => interimOut "loading" "E" i)
            ++ [errOut "E" 2]) :=
  ⟨⟨by decide, by decide⟩,
   (c1_retry_exhaustion 2 3 "loading" "E" (by decide) (by decide)).1⟩

/-- C4: within one tick of an invocation's output, an `error`-status state
followed by any later state in the same tick is never delivered — the
debounced output is the same as if the error state had not been emitted —
while an error state that ends its tick with no subsequent emission is
delivered (it is the last value the tick delivers). -/
theorem c4_error_collapsed_in_tick (x v : Output) (pre post : List Output)
    (hx : x.status = "error") :
    debounceTick (pre ++ x :: v :: post) = debounceTick (pre ++ v :: post)
  ∧ (debounceTick (pre ++ [x])).getLast? = some x :=
  ⟨debounceTickAux_insert_err x v post hx pre none,
   debounceTickAux_last_err x hx pre none⟩

/-- Witness for `c4_error_collapsed_in_tick`: the first failing attempt's
error is collapsed into the retry's loading state, and a lone terminal
error is delivered. -/
theorem c4_error_collapsed_in_tick_witness :
    (errOut "E" 0).status = "error"
  ∧ (debounceTick ([] ++ errOut "E" 0 :: interimOut "loading" "E" 0 :: [])
        = debounceTick ([] ++ interimOut "loading" "E" 0 :: [])
     ∧ (debounceTick ([] ++ [errOut "E" 0])).getLast? = some (errOut "E" 0)) :=
  ⟨rfl, c4_error_collapsed_in_tick (errOut "E" 0) (interimOut "loading" "E" 0)
    [] [] rfl⟩

/-- C5 is refuted as stated: a fetch function that throws synchronously
when called escapes `catchError` — the throw happens inside the factory of
`defer`, which forwards it as an error notification — so the invocation's
output stream terminates with an error notification instead of an
`error`-status value. -/
theorem c5_counterexample :
    neverErrors (callResultStream 3 "loading" (Fetch.throwsSync "boom")) = false
  ∧ callResultStream 3 "loading" (Fetch.throwsSync "boom")
      = RStream.errored [] "boom" :=
  ⟨rfl, rfl⟩

/-- C5 amended: for every fetch function that returns an observable —
one that emits a value, or one whose observable terminates with an error
notification — the invocation's output stream never terminates with an
error notification, and every failure surfaces only as emitted
`error`-status values carrying the error and the retry count (the
interim states and the terminal state of the retry loop). -/
theorem c5_observable_failures_surface (k : Nat) (load : String) (v : Int)
    (e : String) (_hload : load ≠ "error") :
    callResultStream k load (.obsVal v) = .values [successOut v 0]
  ∧ callResultStream k load (.obsErr e)
      = .values (((List.range k).map fun i => interimOut load e i)
          ++ [errOut e k])
  ∧ neverErrors (callResultStream k load (.obsVal v)) = true
  ∧ neverErrors (callResultStream k load (.obsErr e)) = true := by
  have h2 : callResultStream k load (.obsErr e)
      = .values (((List.range k).map fun i => interimOut load e i)
          ++ [errOut e k]) :=
    congrArg RStream.values (debounced_invocation k (k + 1) load e (Nat.lt_succ_self k))
  refine ⟨rfl, h2, rfl, ?_⟩
  rw [h2]
  rfl

/-- Witness for `c5_observable_failures_surface` at `k = 1`. -/
theorem c5_observable_failures_surface_witness :
    ("loading" : String) ≠ "error"
  ∧ callResultStream 1 "loading" (.obsVal 7) = .values [successOut 7 0]
  ∧ callResultStream 1 "loading" (.obsErr "E")
      = .values (((List.range 1).map fun i => interimOut "loading" "E" i)
          ++ [errOut "E" 1]) :=
  ⟨by decide,
   (c5_observable_failures_surface 1 "loading" 7 "E" (by decide)).1,
   (c5_observable_failures_surface 1 "loading" 7 "E" (by decide)).2.1⟩

theorem applyEvent_activeRuns_le (s : GroupState) (e : GEvent)
    (h : s.activeRuns ≤ 1) : ((applyEvent s e).1).activeRuns ≤ 1 := by
  cases e with
  | subscribe =>
    simp only [applyEvent]
    split
    next hc =>
      have h0 : s.activeRuns = 0 := by
        have h2 := (Bool.and_eq_true _ _).mp hc
        simpa using h2.2
      simp [h0]
    next => simpa using h
  | unsubscribe => simpa [applyEvent] using h
  | interval =>
    simp only [applyEvent, refreshStep]
    split
    next hc =>
      have h0 : s.activeRuns = 0 := by
        have h2 := (Bool.and_eq_true _ _).mp hc
        simpa using h2.2
      simp [h0]
    next => simpa using h
  | focus =>
    simp only [applyEvent, refreshStep]
    split
    next hc =>
      have h0 : s.activeRuns = 0 := by
        have h2 := (Bool.and_eq_true _ _).mp hc
        simpa using h2.2
      simp [h0]
    next => simpa using h
  | becomeStale => simpa [applyEvent] using h
  | invocationDone o =>
    simp only [applyEvent]
    omega
  | mutOptimistic =>
    simp only [applyEvent]
    split <;> simpa using h
  | mutSuccess => simpa [applyEvent] using h
  | mutError => simpa [applyEvent] using h

theorem runEvents_activeRuns_le (es : List GEvent) :
    (runEvents es).activeRuns ≤ 1 := by
  have hfold : ∀ (l : List GEvent) (s : GroupState), s.activeRuns ≤ 1 →
      (l.foldl (fun s e => (applyEvent s e).1) s).activeRuns ≤ 1 := by
    intro l
    induction l with
    | nil => intro s hs; exact hs
    | cons e l ih =>
      intro s hs
      exact ih _ (applyEvent_activeRuns_le s e hs)
  exact hfold es initialGroup (by decide)

/-- C2: in every reachable state of the per-key group store, at most one
Invocation Engine run is active; a non-mutation trigger (subscribe,
interval, focus) arriving while one is active starts no new fetch and
leaves the active-run count unchanged; and the broadcast after each event
shows every subscriber of the key the same group result (so all concurrent
subscribers observe the same terminal state). -/
theorem c2_single_flight_per_key (es : List GEvent) (e : GEvent) :
    (runEvents es).activeRuns ≤ 1
  ∧ (isRevalidationTrigger e = true → (runEvents es).activeRuns = 1 →
      (applyEvent (runEvents es) e).2 = false
      ∧ ((applyEvent (runEvents es) e).1).activeRuns = 1)
  ∧ (∀ i j : Nat, observe (runEvents es) i = observe (runEvents es) j) := by
  refine ⟨runEvents_activeRuns_le es, ?_, fun i j => rfl⟩
  intro htrig hone
  cases e with
  | subscribe => simp [applyEvent, hone]
  | interval => simp [applyEvent, refreshStep, hone]
  | focus => simp [applyEvent, refreshStep, hone]
  | unsubscribe => simp [isRevalidationTrigger] at htrig
  | becomeStale => simp [isRevalidationTrigger] at htrig
  | invocationDone o => simp [isRevalidationTrigger] at htrig
  | mutOptimistic => simp [isRevalidationTrigger] at htrig
  | mutSuccess => simp [isRevalidationTrigger] at htrig
  | mutError => simp [isRevalidationTrigger] at htrig

/-- Witness for `c2_single_flight_per_key`: after one `subscribe` started
an invocation, an `interval` trigger starts no second one. -/
theorem c2_single_flight_per_key_witness :
    isRevalidationTrigger GEvent.interval = true
  ∧ (runEvents [GEvent.subscribe]).activeRuns = 1
  ∧ ((applyEvent (runEvents [GEvent.subscribe]) GEvent.interval).2 = false
      ∧ ((applyEvent (runEvents [GEvent.subscribe]) GEvent.interval).1).activeRuns
          = 1) :=
  ⟨rfl, rfl,
   (c2_single_flight_per_key [GEvent.subscribe] GEvent.interval).2.1 rfl rfl⟩

/-- C3 concerns a code bug: with a parameter stream that emitted `1` and
then `2` under query key `"k"`, the teardown's `params$.pipe(take(1))`
replays the FIRST buffered revalidator (the `shareReplay()` of
`paramsTrigger` buffers everything), so the emitted `query-unsubscribe`
carries the key `"k-1"` of the first params — while the last-known params
give `"k-2"`, the key the specification requires. -/
theorem c3_teardown_key_is_first_not_last :
    finalizeEvent "k" [.val (.jnum 1), .val (.jnum 2)]
        = some { key := "k-1", trigger := "query-unsubscribe",
                 params := .val (.jnum 1) }
  ∧ lastKnownKey "k" [.val (.jnum 1), .val (.jnum 2)] = "k-2"
  ∧ ("k-1" : String) ≠ "k-2" :=
  ⟨rfl, rfl, by decide⟩

/-- C6 is refuted as stated: a configured mutator may return an observable
that completes without emitting; then the engine emits `mutate-optimistic`
and `take(1)` just completes, so NO terminal event follows — contradicting
"never neither". -/
theorem c6_counterexample :
    mutateQueryEvents 7 (.obs [] .complete) = [.optimistic 7]
  ∧ terminalCount (mutateQueryEvents 7 (.obs [] .complete)) = 0 :=
  ⟨rfl, rfl⟩

/-- C6 amended: a non-observable mutator result emits a single
`mutate-success` and nothing else; an observable mutator result first
emits `mutate-optimistic` with the caller-supplied value, and — whenever
the observable emits a value or errors — exactly one terminal event
follows it: `mutate-success` with the first resolved value, or
`mutate-error` with the rejection error, never both.  (Only an observable
that completes without ever emitting produces no terminal event.) -/
theorem c6_mutation_protocol (d v : Int) (vs : List Int) (t : ObsTerm)
    (e : String) :
    mutateQueryEvents d (.plain v) = [.success v]
  ∧ mutateQueryEvents d (.obs (v :: vs) t) = [.optimistic d, .success v]
  ∧ mutateQueryEvents d (.obs [] (.errNote e)) = [.optimistic d, .mutErrEvt e]
  ∧ terminalCount (mutateQueryEvents d (.obs (v :: vs) t)) = 1
  ∧ terminalCount (mutateQueryEvents d (.obs [] (.errNote e))) = 1 :=
  ⟨rfl, rfl, rfl, rfl, rfl⟩

theorem mem_distinctUntilChangedAux {α : Type} [DecidableEq α] (a : α) :
    ∀ (l : List α) (prev : α), a ∈ distinctUntilChangedAux prev l → a ∈ l := by
  intro l
  induction l with
  | nil => intro prev h; exact absurd h (List.not_mem_nil a)
  | cons x xs ih =>
    intro prev h
    simp only [distinctUntilChangedAux] at h
    split at h
    · exact List.mem_cons_of_mem x (ih prev h)
    · rcases List.mem_cons.mp h with h1 | h2
      · exact h1 ▸ List.mem_cons_self x xs
      · exact List.mem_cons_of_mem x (ih x h2)

theorem mem_distinctUntilChanged {α : Type} [DecidableEq α] (a : α)
    (l : List α) (h : a ∈ distinctUntilChanged l) : a ∈ l := by
  cases l with
  | nil => simp [distinctUntilChanged] at h
  | cons x xs =>
    simp only [distinctUntilChanged] at h
    rcases List.mem_cons.mp h with h1 | h2
    · exact h1 ▸ List.mem_cons_self x xs
    · exact List.mem_cons_of_mem x (mem_distinctUntilChangedAux a xs x h2)

/-- C7: every state the consumer pipe exposes comes from a cache entry
found under the consumer's current key whose trigger is NOT a bookkeeping
trigger (`query-unsubscribe`, `group-unsubscribe`) — so bookkeeping
emissions for the consumer's key, and emissions that have no entry under
the consumer's key, are never delivered. -/
theorem c7_bookkeeping_never_exposed (emissions : List (CacheSnapshot × String))
    (o : Output) (ho : o ∈ consumerStates emissions) :
    ∃ ck ∈ emissions, ∃ entry : CacheEntry,
      lookupCache ck.1 ck.2 = some entry
      ∧ isBookkeepingTrigger entry.trigger = false
      ∧ o = entry.result := by
  have h1 := mem_distinctUntilChanged _ _ ho
  rcases List.mem_map.mp h1 with ⟨entry, hentry, heq⟩
  rcases List.mem_filter.mp hentry with ⟨hmem, hfilt⟩
  rcases List.mem_filterMap.mp hmem with ⟨ck, hck, hlook⟩
  exact ⟨ck, hck, entry, hlook, by simpa using hfilt, heq.symm⟩

/-- Witness for `c7_bookkeeping_never_exposed` on a one-emission cache
stream. -/
theorem c7_bookkeeping_never_exposed_witness :
    initialState "loading"
        ∈ consumerStates
            [([("k", ⟨"query-subscribe", initialState "loading"⟩)], "k")]
  ∧ ∃ ck ∈ ([([("k", ⟨"query-subscribe", initialState "loading"⟩)], "k")] :
        List (CacheSnapshot × String)), ∃ entry : CacheEntry,
      lookupCache ck.1 ck.2 = some entry
      ∧ isBookkeepingTrigger entry.trigger = false
      ∧ initialState "loading" = entry.result :=
  ⟨by decide, c7_bookkeeping_never_exposed _ _ (by decide)⟩

theorem cacheKey_nonprim (name : String) (p : JVal)
    (hp : isPrimitiveParam p = false) (hn : p ≠ .jnull) :
    queryKeyAndParamsToCacheKey name (.val p) = name ++ "-" ++ jsonStringify p := by
  cases p with
  | jnull => exact absurd rfl hn
  | jbool b => rfl
  | jnum n => simp [isPrimitiveParam] at hp
  | jstr s => simp [isPrimitiveParam] at hp
  | jarr xs => rfl
  | jobj fs => rfl

/-- C8 is refuted as stated: the objects `\x7ba: 1, b: 2\x7d` and
`\x7bb: 2, a: 1\x7d` are deeply structurally equal (same fields, same
values, different insertion order), yet `queryKeyAndParamsToCacheKey`
serializes with the order-sensitive `JSON.stringify` and returns two
different cache keys. -/
theorem c8_counterexample :
    deepEqual (.jobj [("a", .jnum 1), ("b", .jnum 2)])
        (.jobj [("b", .jnum 2), ("a", .jnum 1)]) = true
  ∧ queryKeyAndParamsToCacheKey "k"
        (.val (.jobj [("a", .jnum 1), ("b", .jnum 2)]))
      ≠ queryKeyAndParamsToCacheKey "k"
        (.val (.jobj [("b", .jnum 2), ("a", .jnum 1)])) :=
  ⟨rfl, by decide⟩

/-- C8 amended: the codec is deterministic under ordered serialization
equality — for composite (non-primitive, non-null) parameters the cache
key is exactly the query name, a dash, and the `JSON.stringify` form, so
equal serializations always yield the same key; deep structural equality
alone does not suffice, because field insertion order changes the
serialization (see the counterexample). -/
theorem c8_key_determined_by_serialization (name : String) (p q : JVal)
    (hp : isPrimitiveParam p = false) (hq : isPrimitiveParam q = false)
    (hpn : p ≠ .jnull) (hqn : q ≠ .jnull)
    (h : jsonStringify p = jsonStringify q) :
    queryKeyAndParamsToCacheKey name (.val p)
      = queryKeyAndParamsToCacheKey name (.val q) := by
  rw [cacheKey_nonprim name p hp hpn, cacheKey_nonprim name q hq hqn, h]

/-- Witness for `c8_key_determined_by_serialization` at a concrete
object parameter. -/
theorem c8_key_determined_by_serialization_witness :
    (isPrimitiveParam (JVal.jobj [("a", .jnum 1)]) = false
      ∧ JVal.jobj [("a", .jnum 1)] ≠ .jnull
      ∧ jsonStringify (JVal.jobj [("a", .jnum 1)])
          = jsonStringify (JVal.jobj [("a", .jnum 1)]))
  ∧ queryKeyAndParamsToCacheKey "k" (.val (.jobj [("a", .jnum 1)]))
      = queryKeyAndParamsToCacheKey "k" (.val (.jobj [("a", .jnum 1)])) :=
  ⟨⟨rfl, fun h => JVal.noConfusion h, rfl⟩,
   c8_key_determined_by_serialization "k" _ _ rfl rfl
     (fun h => JVal.noConfusion h) (fun h => JVal.noConfusion h) rfl⟩

/-- C9 is refuted as stated: on a self-referential object (address 0 whose
`self` field points back to address 0) `JSON.stringify` throws its
circular-structure `TypeError`, so `queryKeyAndParamsToCacheKey` is not
total — it throws instead of returning a string. -/
theorem c9_counterexample :
    cacheKeyOnHeap ⟨[(0, [("self", HVal.href 0)])]⟩ "k" (some (.href 0))
      = .error .circular :=
  rfl

theorem exceptMap_isOk {ε α β : Type} (f : α → β) (x : Except ε α)
    (hx : x.isOk = true) : (x.map f).isOk = true := by
  cases x with
  | error e => simp [Except.isOk, Except.toBool] at hx
  | ok a => rfl

/-- C9 amended: `queryKeyAndParamsToCacheKey` returns a string for
`undefined` and for every parameter whose `JSON.stringify` succeeds (in
particular every acyclic, JSON-representable value); only parameters on
which `JSON.stringify` throws — cyclic structures — make it throw. -/
theorem c9_total_on_serializable (h : Heap) (key : String) (v : HVal)
    (hok : (stringifyHVal h (heapFuel h) [] v).isOk = true) :
    (cacheKeyOnHeap h key (some v)).isOk = true
  ∧ (cacheKeyOnHeap h key none).isOk = true := by
  refine ⟨?_, rfl⟩
  cases v with
  | hnull => rfl
  | hstr s => rfl
  | hnum n => rfl
  | hbool b => exact exceptMap_isOk _ _ hok
  | href a => exact exceptMap_isOk _ _ hok

/-- Witness for `c9_total_on_serializable` on an acyclic one-object
heap. -/
theorem c9_total_on_serializable_witness :
    (stringifyHVal ⟨[(0, [("x", HVal.hnum 1)])]⟩
        (heapFuel ⟨[(0, [("x", HVal.hnum 1)])]⟩) [] (.href 0)).isOk = true
  ∧ (cacheKeyOnHeap ⟨[(0, [("x", HVal.hnum 1)])]⟩ "k" (some (.href 0))).isOk
      = true :=
  ⟨rfl, (c9_total_on_serializable ⟨[(0, [("x", HVal.hnum 1)])]⟩ "k"
    (.href 0) rfl).1⟩

/-- C10: the no-params call shape `query(key, fetchFn, config?)` gives the
parameter value `null` (`of(null)` in `parseInput`); the subscribe
`Revalidator` it produces carries `params = null` — the value the store
hands to the fetch function — and its cache key is the bare key string,
because the codec maps `null`, like `undefined`, to the key alone; so the
no-params shape, an explicit `null` param and an explicit `undefined`
param all address the same cache group. -/
theorem c10_no_params_is_null (key : String) (rest : List CallInput) :
    parsedParam (.fn :: rest) = .val .jnull
  ∧ paramsTriggerEvents key [parsedParam (.fn :: rest)]
      = [{ key := key, trigger := "query-subscribe", params := .val .jnull }]
  ∧ queryKeyAndParamsToCacheKey key (.val .jnull) = key
  ∧ queryKeyAndParamsToCacheKey key .jsUndefined = key :=
  ⟨rfl, rfl, rfl, rfl⟩

end RxQuery
